import Mathlib

/-!
Verification of osql-cli against its specification.

The repository's `src/osqlcli/main.py` is embedded directly.  The protocol
core (framer, correlator, router, query-session state machine) is exercised
by `src/tests/test_osqlcliclient.py` but its implementation files are not
part of the source tree; those components are modelled from the
specification, as marked on each definition.
-/

namespace OsqlCli

/-- Python strings are modelled as lists of characters. -/
abbrev Str := List Char

/-- ASCII lowering of a single character, as Python `str.lower` acts on
ASCII text (`main.py` only lowers the ASCII literals `admin:` and
`windows`). -/
def pyLowerChar (c : Char) : Char :=
  if 'A' ≤ c ∧ c ≤ 'Z' then Char.ofNat (c.toNat + 32) else c

/-- Python `str.lower`, character-wise. -/
def pyLower (s : Str) : Str := s.map pyLowerChar

/-- The literal `"admin:"` from `configure_and_update_options`. -/
def adminText : Str := ['a', 'd', 'm', 'i', 'n', ':']

/-- The literal `"windows"` compared against `platform.system().lower()`. -/
def windowsText : Str := ['w', 'i', 'n', 'd', 'o', 'w', 's']

/-- The default user name `"sa"` from `configure_and_update_options`. -/
def saDefault : Str := ['s', 'a']

/-- The options object of `main.py`: the fields read or written by
`run_cli_with` and its helpers. -/
structure Options where
  server : Str
  dac_connection : Bool
  integrated_auth : Bool
  username : Str
  password : Str
  version : Bool
deriving DecidableEq, Repr

/-- Embedding of `configure_and_update_options` (`main.py` lines 57-65).
The results of `input()` and `getpass.getpass()` are passed in explicitly;
Python's `input(...) or u'sa'` is the empty-string fallback. -/
def configure_and_update_options (inputResult getpassResult : Str)
    (o : Options) : Options :=
  let o1 := if o.dac_connection = true ∧ o.server ≠ [] ∧
               adminText.isPrefixOf (pyLower o.server) = false
            then { o with server := adminText ++ o.server } else o
  let o2 := if o1.integrated_auth = false ∧ o1.username = []
            then { o1 with username :=
                     if inputResult = [] then saDefault else inputResult }
            else o1
  if o2.integrated_auth = false ∧ o2.password = []
  then { o2 with password := getpassResult } else o2

/-- Embedding of `display_integrated_auth_message_for_non_windows`
(`main.py` lines 77-80); `system` is the value of `platform.system()`. -/
def display_integrated_auth_message_for_non_windows (system : Str)
    (o : Options) : Options :=
  if pyLower system ≠ windowsText ∧ o.integrated_auth = true
  then { o with integrated_auth := false } else o

/-- The filesystem as seen by `create_config_dir_for_first_use`: the list
of paths that exist. -/
abbrev FileSystem := List Str

/-- Embedding of `create_config_dir_for_first_use` (`main.py` lines 68-74):
returns whether the directory was created, together with the filesystem
after the call. -/
def create_config_dir_for_first_use (configDir : Str) (fs : FileSystem) :
    Bool × FileSystem :=
  if configDir ∈ fs then (false, fs) else (true, configDir :: fs)

/-- Messages printed by `run_cli_with` before it connects. -/
inductive Displayed where
  | telemetryPrompt
  | versionMessage
  | integratedAuthMessage
deriving DecidableEq, Repr

/-- Embedding of the head of `run_cli_with` (`main.py` lines 40-48): the
config-directory check, the displayed messages in order, and the option
updates, up to the point where the client connects.  `none` in the last
component models `sys.exit(0)` on `--version`. -/
def run_cli_with (configDir system inputResult getpassResult : Str)
    (o : Options) (fs : FileSystem) :
    List Displayed × FileSystem × Option Options :=
  let firstUse := create_config_dir_for_first_use configDir fs
  let msgs := if firstUse.1 then [Displayed.telemetryPrompt] else []
  if o.version then
    (msgs ++ [Displayed.versionMessage], firstUse.2, none)
  else
    let msgs := msgs ++
      (if pyLower system ≠ windowsText ∧ o.integrated_auth = true
       then [Displayed.integratedAuthMessage] else [])
    let o1 := display_integrated_auth_message_for_non_windows system o
    (msgs, firstUse.2, some (configure_and_update_options inputResult getpassResult o1))

lemma pyLower_append (s t : Str) : pyLower (s ++ t) = pyLower s ++ pyLower t :=
  List.map_append pyLowerChar s t

lemma pyLower_adminText : pyLower adminText = adminText := by decide

lemma isPrefixOf_append_self (l t : List Char) : l.isPrefixOf (l ++ t) = true := by
  induction l with
  | nil => simp [List.isPrefixOf]
  | cons c cs ih => simp [List.isPrefixOf, ih]

/-- The `server` field after `configure_and_update_options`: only the
first `if` of the function touches it. -/
lemma configure_server_eq (inputResult getpassResult : Str) (o : Options) :
    (configure_and_update_options inputResult getpassResult o).server =
      if o.dac_connection = true ∧ o.server ≠ [] ∧
           adminText.isPrefixOf (pyLower o.server) = false
      then adminText ++ o.server else o.server := by
  unfold configure_and_update_options
  dsimp only
  split_ifs <;> rfl

/-- The `dac_connection` field is never written by
`configure_and_update_options`. -/
lemma configure_dac_eq (inputResult getpassResult : Str) (o : Options) :
    (configure_and_update_options inputResult getpassResult o).dac_connection =
      o.dac_connection := by
  unfold configure_and_update_options
  dsimp only
  split_ifs <;> rfl

/-- Claim C8: `configure_and_update_options` is idempotent on the `server`
field.  With `dac_connection` set and a non-empty `server`, one application
makes the server start (case-insensitively) with `admin:`; a server that
already carries the prefix in any letter case is not modified; and a second
application leaves the server value unchanged. -/
theorem configure_admin_server_idempotent
    (inU inP inU2 inP2 : Str) (o : Options)
    (hdac : o.dac_connection = true) (hs : o.server ≠ []) :
    adminText.isPrefixOf
        (pyLower (configure_and_update_options inU inP o).server) = true ∧
    (adminText.isPrefixOf (pyLower o.server) = true →
      (configure_and_update_options inU inP o).server = o.server) ∧
    (configure_and_update_options inU2 inP2
        (configure_and_update_options inU inP o)).server =
      (configure_and_update_options inU inP o).server := by
  have h1 : adminText.isPrefixOf
      (pyLower (configure_and_update_options inU inP o).server) = true := by
    rw [configure_server_eq]
    cases hpre : adminText.isPrefixOf (pyLower o.server) with
    | true => simp [hpre]
    | false =>
        simp [hdac, hs, hpre, pyLower_append, pyLower_adminText,
          isPrefixOf_append_self]
  refine ⟨h1, ?_, ?_⟩
  · intro hpre
    rw [configure_server_eq]
    simp [hpre]
  · rw [configure_server_eq inU2 inP2]
    simp [h1]

/-- Claim C8 witness: the theorem instantiated at a concrete options
object with `dac_connection` set and server `"x"`. -/
theorem configure_admin_server_idempotent_witness :
    (⟨['x'], true, true, [], [], false⟩ : Options).dac_connection = true ∧
    (⟨['x'], true, true, [], [], false⟩ : Options).server ≠ [] ∧
    (adminText.isPrefixOf
        (pyLower (configure_and_update_options [] []
          (⟨['x'], true, true, [], [], false⟩ : Options)).server) = true ∧
    (adminText.isPrefixOf
        (pyLower (⟨['x'], true, true, [], [], false⟩ : Options).server) = true →
      (configure_and_update_options [] []
          (⟨['x'], true, true, [], [], false⟩ : Options)).server =
        (⟨['x'], true, true, [], [], false⟩ : Options).server) ∧
    (configure_and_update_options [] []
        (configure_and_update_options [] []
          (⟨['x'], true, true, [], [], false⟩ : Options))).server =
      (configure_and_update_options [] []
          (⟨['x'], true, true, [], [], false⟩ : Options)).server) :=
  ⟨by decide, by decide,
    configure_admin_server_idempotent [] [] [] []
      (⟨['x'], true, true, [], [], false⟩ : Options) (by decide) (by decide)⟩

/-- Claim C9: `display_integrated_auth_message_for_non_windows` leaves
`integrated_auth` equal to the conjunction of its old value with the
platform being Windows (so it is set to `false` exactly when the platform
is not Windows and it was `true`), and every other field is unchanged. -/
theorem integrated_auth_update_frame (system : Str) (o : Options) :
    (display_integrated_auth_message_for_non_windows system o).integrated_auth
      = (o.integrated_auth && decide (pyLower system = windowsText)) ∧
    (display_integrated_auth_message_for_non_windows system o).server = o.server ∧
    (display_integrated_auth_message_for_non_windows system o).dac_connection
      = o.dac_connection ∧
    (display_integrated_auth_message_for_non_windows system o).username
      = o.username ∧
    (display_integrated_auth_message_for_non_windows system o).password
      = o.password ∧
    (display_integrated_auth_message_for_non_windows system o).version
      = o.version := by
  by_cases hw : pyLower system = windowsText <;>
    cases hia : o.integrated_auth <;>
      simp [display_integrated_auth_message_for_non_windows, hw, hia]

/-- Claim C10: `create_config_dir_for_first_use` returns `true` exactly
when the configuration directory did not exist, creates it in that case
and leaves the filesystem unchanged otherwise, and `run_cli_with` shows
the telemetry prompt exactly when that first-use creation occurred. -/
theorem config_dir_first_use_telemetry
    (configDir system inU inP : Str) (o : Options) (fs : FileSystem) :
    ((create_config_dir_for_first_use configDir fs).1 = true ↔ configDir ∉ fs) ∧
    (create_config_dir_for_first_use configDir fs).2 =
      (if configDir ∈ fs then fs else configDir :: fs) ∧
    (Displayed.telemetryPrompt ∈ (run_cli_with configDir system inU inP o fs).1
      ↔ configDir ∉ fs) := by
  refine ⟨?_, ?_, ?_⟩
  · by_cases hmem : configDir ∈ fs <;>
      simp [create_config_dir_for_first_use, hmem]
  · by_cases hmem : configDir ∈ fs <;>
      simp [create_config_dir_for_first_use, hmem]
  · by_cases hmem : configDir ∈ fs <;>
      cases hv : o.version <;>
        by_cases hw : pyLower system = windowsText ∧ o.integrated_auth = true <;>
          simp [run_cli_with, create_config_dir_for_first_use, hmem, hv, hw]

/-- Modelled from the spec: JSON values carried by the JSON-RPC wire
protocol (§3, §6).  The `osqlcli/jsonrpc` implementation files are not
under `src/`; only their tests are. -/
inductive JsonValue where
  | null
  | bool (b : Bool)
  | num (n : Int)
  | str (s : Str)
  | arr (items : List JsonValue)
  | obj (fields : List (Str × JsonValue))

/-- Modelled from the spec: a protocol Message (§3) — a tagged variant of
Request (id, method, open parameter payload including caller-supplied
extension parameters), Response (id with result or error payload) and
Notification (method and payload, no id). -/
inductive Message where
  | request (id : Int) (method : Str) (params : List (Str × JsonValue))
  | response (id : Int) (result : Option JsonValue) (error : Option JsonValue)
  | notification (method : Str) (params : List (Str × JsonValue))

/-- The JSON-RPC field name `"id"`. -/
def idKey : Str := ['i', 'd']

/-- The JSON-RPC field name `"method"`. -/
def methodKey : Str := ['m', 'e', 't', 'h', 'o', 'd']

/-- The JSON-RPC field name `"params"`. -/
def paramsKey : Str := ['p', 'a', 'r', 'a', 'm', 's']

/-- The JSON-RPC field name `"result"`. -/
def resultKey : Str := ['r', 'e', 's', 'u', 'l', 't']

/-- The JSON-RPC field name `"error"`. -/
def errorKey : Str := ['e', 'r', 'r', 'o', 'r']

/-- First value bound to a key in a JSON object's field list. -/
def lookupField (k : Str) : List (Str × JsonValue) → Option JsonValue
  | [] => none
  | (k', v) :: rest => if k' = k then some v else lookupField k rest

/-- Modelled from the spec: serialization of a Message to its JSON
document (§4.1 `write`, payload part).  Absent `result`/`error` payloads
are omitted rather than sent as `null`. -/
def encodeMessage : Message → JsonValue
  | .request i m ps =>
      .obj [(idKey, .num i), (methodKey, .str m), (paramsKey, .obj ps)]
  | .notification m ps =>
      .obj [(methodKey, .str m), (paramsKey, .obj ps)]
  | .response i r e =>
      .obj ([(idKey, .num i)]
        ++ (match r with | some v => [(resultKey, v)] | none => [])
        ++ (match e with | some v => [(errorKey, v)] | none => []))

/-- Modelled from the spec: decoding of one JSON document into a Message
(§4.1 `read`, payload part).  A document that fits none of the three
shapes is a decoding failure. -/
def decodeMessage : JsonValue → Option Message
  | .obj fields =>
    match lookupField idKey fields with
    | some (.num i) =>
      match lookupField methodKey fields with
      | some (.str m) =>
        match lookupField paramsKey fields with
        | some (.obj ps) => some (.request i m ps)
        | _ => none
      | _ =>
        some (.response i (lookupField resultKey fields)
          (lookupField errorKey fields))
    | _ =>
      match lookupField methodKey fields with
      | some (.str m) =>
        match lookupField paramsKey fields with
        | some (.obj ps) => some (.notification m ps)
        | _ => none
      | _ => none
  | _ => none

mutual

/-- Modelled from the spec: the serialized byte length of a JSON value,
standing for the length announced in the `Content-Length` framing header
(§4.1). -/
def jsonSize : JsonValue → Nat
  | .null => 4
  | .bool b => if b then 4 else 5
  | .num n => (toString n).length
  | .str s => s.length + 2
  | .arr items => 2 + jsonSizeList items
  | .obj fields => 2 + jsonSizeFields fields

/-- Serialized length of an array's items, separators included. -/
def jsonSizeList : List JsonValue → Nat
  | [] => 0
  | v :: rest => jsonSize v + 1 + jsonSizeList rest

/-- Serialized length of an object's fields, separators included. -/
def jsonSizeFields : List (Str × JsonValue) → Nat
  | [] => 0
  | (k, v) :: rest => k.length + 3 + jsonSize v + 1 + jsonSizeFields rest

end

/-- Modelled from the spec: one wire frame — the length header followed by
the payload it delimits (§4.1). -/
structure Frame where
  contentLength : Nat
  payload : JsonValue

/-- Decoding failures of the Framer are fatal `ProtocolFraming` errors
(§4.1, §7). -/
inductive FramerError where
  | protocolFraming
deriving DecidableEq, Repr

/-- Modelled from the spec: `write` of the Message Framer — serialize the
message and prepend the explicit length header (§4.1). -/
def framerWrite (m : Message) : Frame :=
  ⟨jsonSize (encodeMessage m), encodeMessage m⟩

/-- Modelled from the spec: `read` of the Message Framer — check the
header against the payload extent, then decode; any mismatch or malformed
payload is a `ProtocolFraming` error (§4.1). -/
def framerRead (f : Frame) : Except FramerError Message :=
  if f.contentLength = jsonSize f.payload then
    match decodeMessage f.payload with
    | some m => .ok m
    | none => .error .protocolFraming
  else .error .protocolFraming

lemma decodeMessage_encodeMessage (m : Message) :
    decodeMessage (encodeMessage m) = some m := by
  cases m with
  | request i mth ps => rfl
  | notification mth ps => rfl
  | response i r e => cases r <;> cases e <;> rfl

/-- Claim C6: encoding a Message through the Framer's `write` and decoding
it back through `read` recovers the original message in every field —
id, method, params (extension parameters included), result and error. -/
theorem framer_round_trip (m : Message) :
    framerRead (framerWrite m) = .ok m := by
  simp [framerWrite, framerRead, decodeMessage_encodeMessage]

/-- Modelled from the spec: one entry of the pending-request table (§3,
§4.2) — the request id and the token of the single-use continuation slot
registered by the caller awaiting that id. -/
structure PendingEntry where
  id : Int
  waiter : Nat
deriving DecidableEq, Repr

/-- Modelled from the spec: what a pending slot is fulfilled with — the
response's result payload, its error payload, or the `ConnectionClosed`
error used when the connection shuts down (§4.2, §7). -/
inductive Outcome where
  | result (v : Option JsonValue)
  | rpcError (e : JsonValue)
  | connectionClosed

/-- Outcome carried by a response: an error payload wins over a result
payload (§3: result and error are mutually exclusive). -/
def outcomeOf (r e : Option JsonValue) : Outcome :=
  match e with
  | some v => .rpcError v
  | none => .result r

/-- Modelled from the spec: what the reader loop does with one decoded
inbound message (§4.2) — fulfill a pending entry, hand a notification to
the Router, or report an unmatched id as a protocol violation without
crashing. -/
inductive Dispatch where
  | fulfilled (waiter : Nat) (out : Outcome)
  | routed (method : Str) (params : List (Str × JsonValue))
  | unmatchedId (id : Int)

/-- Lookup of a pending id in the table, as a dictionary access. -/
def findPending (i : Int) : List PendingEntry → Option PendingEntry
  | [] => none
  | p :: rest => if p.id = i then some p else findPending i rest

/-- Modelled from the spec: the Correlator's handling of one decoded
inbound message (§4.2).  A response's id is looked up in the pending
table: a match fulfills that entry and removes it; no match is a reported
protocol violation that leaves the table intact.  Messages without an id
are handed to the Router (server-initiated requests are routed by method
like notifications). -/
def handleInbound (pending : List PendingEntry) (m : Message) :
    List PendingEntry × Dispatch :=
  match m with
  | .response i r e =>
    match findPending i pending with
    | some p =>
        (pending.filter (fun q => q.id != i), .fulfilled p.waiter (outcomeOf r e))
    | none => (pending, .unmatchedId i)
  | .notification mth ps => (pending, .routed mth ps)
  | .request _ mth ps => (pending, .routed mth ps)

lemma findPending_of_nodup (i : Int) (w : Nat) :
    ∀ pending : List PendingEntry,
      (⟨i, w⟩ : PendingEntry) ∈ pending →
      (pending.map PendingEntry.id).Nodup →
      findPending i pending = some ⟨i, w⟩ := by
  intro pending
  induction pending with
  | nil => intro hmem _; exact absurd hmem (List.not_mem_nil _)
  | cons p rest ih =>
    intro hmem hnodup
    by_cases hpid : p.id = i
    · rcases List.mem_cons.mp hmem with heq | htail
      · cases heq
        simp [findPending]
      · exfalso
        have : p.id ∈ rest.map PendingEntry.id := by
          rw [hpid]
          exact List.mem_map.mpr ⟨⟨i, w⟩, htail, rfl⟩
        exact (List.nodup_cons.mp hnodup).1 this
    · have htail : (⟨i, w⟩ : PendingEntry) ∈ rest := by
        rcases List.mem_cons.mp hmem with heq | htail
        · exact absurd (heq ▸ rfl : p.id = i) hpid
        · exact htail
      simp only [findPending, if_neg hpid]
      exact ih htail (List.nodup_cons.mp hnodup).2

/-- Claim C1: when request ids in the pending table are unique, a decoded
inbound response carrying a pending id is dispatched to exactly the waiter
that registered that id, that entry is removed, and every other pending
entry survives in the table (no delivery to another pending caller). -/
theorem correlator_response_delivery
    (pending : List PendingEntry) (i : Int) (w : Nat)
    (r e : Option JsonValue)
    (hmem : (⟨i, w⟩ : PendingEntry) ∈ pending)
    (hnodup : (pending.map PendingEntry.id).Nodup) :
    (handleInbound pending (.response i r e)).2 =
        .fulfilled w (outcomeOf r e) ∧
    ∀ p : PendingEntry,
      p ∈ (handleInbound pending (.response i r e)).1 ↔
        p ∈ pending ∧ p.id ≠ i := by
  have hfind := findPending_of_nodup i w pending hmem hnodup
  constructor
  · simp [handleInbound, hfind]
  · intro p
    simp [handleInbound, hfind, List.mem_filter]

/-- Claim C1 witness: a table with two pending callers; the response with
id 2 is delivered to waiter 20, id 2 is removed, and the entry for id 1
survives. -/
theorem correlator_response_delivery_witness :
    ((⟨2, 20⟩ : PendingEntry) ∈ [(⟨1, 10⟩ : PendingEntry), ⟨2, 20⟩]) ∧
    (([(⟨1, 10⟩ : PendingEntry), ⟨2, 20⟩].map PendingEntry.id).Nodup) ∧
    ((handleInbound [⟨1, 10⟩, ⟨2, 20⟩] (.response 2 none none)).2 =
        .fulfilled 20 (outcomeOf none none) ∧
      ∀ p : PendingEntry,
        p ∈ (handleInbound [⟨1, 10⟩, ⟨2, 20⟩] (.response 2 none none)).1 ↔
          p ∈ [⟨1, 10⟩, ⟨2, 20⟩] ∧ p.id ≠ 2) :=
  ⟨by decide, by decide,
    correlator_response_delivery [⟨1, 10⟩, ⟨2, 20⟩] 2 20 none none
      (by decide) (by decide)⟩

/-- Modelled from the spec: the shared mutable state of one connection —
the pending-request table and the registry of in-flight Query Sessions
(§5), each session named by its token. -/
structure ConnectionState where
  pending : List PendingEntry
  sessions : List Nat

/-- Modelled from the spec: one resolution performed by shutdown — a
pending slot fulfilled, or an in-flight session's remaining batches
resolved (§4.2, §7). -/
inductive ShutdownEvent where
  | pendingFulfilled (waiter : Nat) (out : Outcome)
  | sessionClosed (token : Nat) (out : Outcome)

/-- Modelled from the spec: connection shutdown (§4.2, §7) — every
outstanding pending entry is fulfilled with `ConnectionClosed`, every
in-flight Query Session is resolved with `ConnectionClosed`, and both
tables are left empty. -/
def shutdownConnection (st : ConnectionState) :
    List ShutdownEvent × ConnectionState :=
  (st.pending.map (fun p => .pendingFulfilled p.waiter .connectionClosed)
    ++ st.sessions.map (fun t => .sessionClosed t .connectionClosed),
   ⟨[], []⟩)

/-- Claim C7: shutdown fulfills every outstanding pending entry with a
`ConnectionClosed` error, resolves every in-flight Query Session with
`ConnectionClosed`, and leaves no pending entry and no session behind, so
no caller stays blocked on an empty table.  Each universal stands on its
own: the pending drain holds whether or not a session is in flight, and
conversely. -/
theorem shutdown_drains_pending (st : ConnectionState) :
    (∀ p ∈ st.pending,
      ShutdownEvent.pendingFulfilled p.waiter .connectionClosed
        ∈ (shutdownConnection st).1) ∧
    (∀ t ∈ st.sessions,
      ShutdownEvent.sessionClosed t .connectionClosed
        ∈ (shutdownConnection st).1) ∧
    (shutdownConnection st).2.pending = [] ∧
    (shutdownConnection st).2.sessions = [] := by
  refine ⟨?_, ?_, rfl, rfl⟩
  · intro p hp
    exact List.mem_append_left _ (List.mem_map.mpr ⟨p, hp, rfl⟩)
  · intro t ht
    exact List.mem_append_right _ (List.mem_map.mpr ⟨t, ht, rfl⟩)

/-- Claim C7 witness: a connection with one pending caller and one
in-flight session; shutdown resolves both with `ConnectionClosed` and
empties both tables. -/
theorem shutdown_drains_pending_witness :
    (∀ p ∈ (⟨[⟨7, 70⟩], [3]⟩ : ConnectionState).pending,
      ShutdownEvent.pendingFulfilled p.waiter .connectionClosed
        ∈ (shutdownConnection ⟨[⟨7, 70⟩], [3]⟩).1) ∧
    (∀ t ∈ (⟨[⟨7, 70⟩], [3]⟩ : ConnectionState).sessions,
      ShutdownEvent.sessionClosed t .connectionClosed
        ∈ (shutdownConnection ⟨[⟨7, 70⟩], [3]⟩).1) ∧
    (shutdownConnection ⟨[⟨7, 70⟩], [3]⟩).2.pending = [] ∧
    (shutdownConnection ⟨[⟨7, 70⟩], [3]⟩).2.sessions = [] :=
  shutdown_drains_pending ⟨[⟨7, 70⟩], [3]⟩

/-- Column metadata of one result set: name and declared type (§3). -/
abbrev Column := Str × Str

/-- One row: an ordered tuple of values. -/
abbrev Row := List JsonValue

/-- Modelled from the spec: a caller-visible Batch (§3, §6) — column
metadata, row data, informational message, the source text the backend
attributes to the batch, and the error flag. -/
structure Batch where
  columns : List Column
  rows : List Row
  message : Str
  sourceText : Str
  isError : Bool

/-- Modelled from the spec: the per-batch accumulation state of the Query
Session State Machine (§4.4); `columns` is `none` until a
`result-set-available` notification arrives. -/
structure PartialBatch where
  columns : Option (List Column)
  rows : List Row
  message : Str
  sourceText : Str
  isError : Bool

/-- Modelled from the spec: the ordered notifications a Query Session
consumes (§4.4). -/
inductive QueryEvent where
  | queryStart
  | batchStart (sourceText : Str)
  | resultSetAvailable (columns : List Column)
  | rowData (rows : List Row)
  | infoMessage (text : Str) (isError : Bool)
  | batchComplete
  | queryComplete

/-- A frozen batch: absent column metadata becomes the empty column list
(a batch may have zero result sets, §4.4). -/
def freeze (pb : PartialBatch) : Batch :=
  ⟨pb.columns.getD [], pb.rows, pb.message, pb.sourceText, pb.isError⟩

/-- Modelled from the spec: the state of one Query Session (§4.4) — the
batch currently accumulating, the batches already yielded in order, and
whether `query-complete` has arrived. -/
structure SessionState where
  current : Option PartialBatch
  output : List Batch
  finished : Bool

/-- The state before any notification arrives. -/
def initialSession : SessionState := ⟨none, [], false⟩

/-- Modelled from the spec: the transition table of the Query Session
State Machine (§4.4).  `batch-start` opens a new Batch with the backend's
attributed source text; `result-set-available` sets the column metadata,
and a further result set inside the same backend batch yields the
accumulated Batch and opens a distinct one (edge case c); `row-data`
appends rows in arrival order; `message` attaches to the current Batch and
an error-flagged message sets its error flag; `batch-complete` freezes and
yields the current Batch; `query-complete` ends the sequence. -/
def stepEvent (st : SessionState) (e : QueryEvent) : SessionState :=
  match e with
  | .queryStart => { st with current := none }
  | .batchStart txt => { st with current := some ⟨none, [], [], txt, false⟩ }
  | .resultSetAvailable cols =>
    match st.current with
    | none => st
    | some pb =>
      match pb.columns with
      | none => { st with current := some { pb with columns := some cols } }
      | some _ =>
          { st with output := st.output ++ [freeze pb],
                    current := some ⟨some cols, [], [], pb.sourceText, false⟩ }
  | .rowData rs =>
    match st.current with
    | none => st
    | some pb => { st with current := some { pb with rows := pb.rows ++ rs } }
  | .infoMessage txt isErr =>
    match st.current with
    | none => st
    | some pb =>
        let pb2 : PartialBatch :=
          { pb with message := txt, isError := pb.isError || isErr }
        { st with current := some pb2 }
  | .batchComplete =>
    match st.current with
    | none => st
    | some pb =>
        { st with output := st.output ++ [freeze pb], current := none }
  | .queryComplete => { st with finished := true }

/-- Consume a sequence of notifications from a given session state. -/
def runEvents (st : SessionState) (evs : List QueryEvent) : SessionState :=
  evs.foldl stepEvent st

/-- Modelled from the spec: `execute_query` (§6) — the Batch sequence the
caller sees once the backend's notification sequence for the submitted
text has been consumed.  The submitted text itself plays no part in batch
attribution: source texts come from the backend's `batch-start`
notifications (§4.4 edge case a). -/
def execute_query (queryText : Str) (evs : List QueryEvent) : List Batch :=
  (runEvents initialSession evs).output

/-- The backend's reported behaviour for one batch: its attributed source
text, its column metadata, its row chunks in arrival order, and its
informational or error message. -/
structure BatchSpec where
  sourceText : Str
  columns : List Column
  rowChunks : List (List Row)
  message : Str
  isError : Bool

/-- The notification sequence the backend emits for one batch. -/
def batchEvents (b : BatchSpec) : List QueryEvent :=
  QueryEvent.batchStart b.sourceText ::
    QueryEvent.resultSetAvailable b.columns ::
      (b.rowChunks.map QueryEvent.rowData ++
        [QueryEvent.infoMessage b.message b.isError, QueryEvent.batchComplete])

/-- The full notification sequence of one executed query whose batches the
backend reports as `bs`. -/
def queryEvents (bs : List BatchSpec) : List QueryEvent :=
  QueryEvent.queryStart ::
    ((bs.map batchEvents).flatten ++ [QueryEvent.queryComplete])

/-- The Batch the machine is expected to yield for one reported batch. -/
def specBatch (b : BatchSpec) : Batch :=
  ⟨b.columns, b.rowChunks.flatten, b.message, b.sourceText, b.isError⟩

lemma runEvents_append (st : SessionState) (l1 l2 : List QueryEvent) :
    runEvents st (l1 ++ l2) = runEvents (runEvents st l1) l2 :=
  List.foldl_append stepEvent st l1 l2

lemma runEvents_rowChunks (chunks : List (List Row)) :
    ∀ (pb : PartialBatch) (out : List Batch) (fl : Bool),
      runEvents ⟨some pb, out, fl⟩ (chunks.map QueryEvent.rowData)
        = ⟨some { pb with rows := pb.rows ++ chunks.flatten }, out, fl⟩ := by
  induction chunks with
  | nil => intro pb out fl; simp [runEvents]
  | cons c cs ih =>
      intro pb out fl
      show runEvents ⟨some { pb with rows := pb.rows ++ c }, out, fl⟩
          (cs.map QueryEvent.rowData) = _
      rw [ih]
      simp [List.append_assoc]

lemma runEvents_batchEvents (b : BatchSpec) (out : List Batch) (fl : Bool) :
    runEvents ⟨none, out, fl⟩ (batchEvents b)
      = ⟨none, out ++ [specBatch b], fl⟩ := by
  show runEvents ⟨some ⟨some b.columns, [], [], b.sourceText, false⟩, out, fl⟩
      (b.rowChunks.map QueryEvent.rowData ++
        [QueryEvent.infoMessage b.message b.isError, QueryEvent.batchComplete])
      = _
  rw [runEvents_append, runEvents_rowChunks]
  simp [runEvents, stepEvent, freeze, specBatch]

lemma runEvents_queryBatches (bs : List BatchSpec) :
    ∀ (out : List Batch) (fl : Bool),
      runEvents ⟨none, out, fl⟩ (bs.map batchEvents).flatten
        = ⟨none, out ++ bs.map specBatch, fl⟩ := by
  induction bs with
  | nil => intro out fl; simp [runEvents]
  | cons b rest ih =>
      intro out fl
      simp only [List.map_cons, List.flatten_cons]
      rw [runEvents_append, runEvents_batchEvents, ih]
      simp

lemma runEvents_queryEvents (bs : List BatchSpec) :
    runEvents initialSession (queryEvents bs)
      = ⟨none, bs.map specBatch, true⟩ := by
  show runEvents ⟨none, [], false⟩
      ((bs.map batchEvents).flatten ++ [QueryEvent.queryComplete]) = _
  rw [runEvents_append, runEvents_queryBatches]
  simp [runEvents, stepEvent]

/-- Claim C2: when the backend attributes one batch per statement of the
submitted text, the output sequence has exactly as many Batches as the
backend reports, in submission order, each carrying the backend's own
reported per-batch source text — independent of the submitted query text,
so no client-side semicolon split is involved. -/
theorem execute_query_one_batch_per_statement
    (queryText : Str) (bs : List BatchSpec) :
    (execute_query queryText (queryEvents bs)).length = bs.length ∧
    (execute_query queryText (queryEvents bs)).map Batch.sourceText
      = bs.map BatchSpec.sourceText := by
  unfold execute_query
  rw [runEvents_queryEvents]
  constructor
  · simp
  · simp [List.map_map, specBatch, Function.comp]

/-- Claim C4: within every Batch the stored row sequence is exactly the
concatenation, in arrival order, of the rows carried by that batch's
`row-data` notifications, however they are chunked — no sorting, no
deduplication. -/
theorem batch_rows_arrival_order (queryText : Str) (bs : List BatchSpec) :
    (execute_query queryText (queryEvents bs)).map Batch.rows
      = bs.map (fun b => b.rowChunks.flatten) := by
  unfold execute_query
  rw [runEvents_queryEvents]
  simp [List.map_map, specBatch, Function.comp]

/-- Claim C3: when one statement of a multi-statement query fails, the
failing statement's Batch is emitted with its error flag set and a
non-empty message, every subsequent batch still appears in the output
sequence, and the sequence reaches query-complete. -/
theorem failing_batch_siblings_survive (queryText : Str)
    (pre post : List BatchSpec) (b : BatchSpec)
    (herr : b.isError = true) (hmsg : b.message ≠ []) :
    execute_query queryText (queryEvents (pre ++ b :: post))
      = pre.map specBatch ++ specBatch b :: post.map specBatch ∧
    (specBatch b).isError = true ∧
    (specBatch b).message ≠ [] ∧
    (runEvents initialSession (queryEvents (pre ++ b :: post))).finished
      = true := by
  refine ⟨?_, herr, hmsg, ?_⟩
  · unfold execute_query
    rw [runEvents_queryEvents]
    simp
  · rw [runEvents_queryEvents]

/-- Claim C3 witness: three statements where the middle one fails with
message `"e"`: all three Batches appear in order, the failing one flagged,
and the machine reaches query-complete. -/
theorem failing_batch_siblings_survive_witness :
    (⟨['b'], [], [], ['e'], true⟩ : BatchSpec).isError = true ∧
    (⟨['b'], [], [], ['e'], true⟩ : BatchSpec).message ≠ [] ∧
    (execute_query []
        (queryEvents ([⟨['a'], [], [], [], false⟩] ++
          (⟨['b'], [], [], ['e'], true⟩ : BatchSpec) ::
            [⟨['c'], [], [], [], false⟩]))
      = [(⟨['a'], [], [], [], false⟩ : BatchSpec)].map specBatch ++
          specBatch ⟨['b'], [], [], ['e'], true⟩ ::
            [(⟨['c'], [], [], [], false⟩ : BatchSpec)].map specBatch ∧
    (specBatch ⟨['b'], [], [], ['e'], true⟩).isError = true ∧
    (specBatch ⟨['b'], [], [], ['e'], true⟩).message ≠ [] ∧
    (runEvents initialSession
        (queryEvents ([⟨['a'], [], [], [], false⟩] ++
          (⟨['b'], [], [], ['e'], true⟩ : BatchSpec) ::
            [⟨['c'], [], [], [], false⟩]))).finished = true) :=
  ⟨rfl, by decide,
    failing_batch_siblings_survive [] [⟨['a'], [], [], [], false⟩]
      [⟨['c'], [], [], [], false⟩] ⟨['b'], [], [], ['e'], true⟩
      rfl (by decide)⟩

/-- The backend's reported behaviour for one result set inside a single
backend batch (e.g. one `SELECT` of a stored procedure). -/
structure ResultSetSpec where
  columns : List Column
  rowChunks : List (List Row)

/-- The notifications one result set contributes. -/
def resultSetEvents (rs : ResultSetSpec) : List QueryEvent :=
  QueryEvent.resultSetAvailable rs.columns ::
    rs.rowChunks.map QueryEvent.rowData

/-- The notification sequence of one statement that yields several result
sets within a single backend batch. -/
def procEvents (txt : Str) (rss : List ResultSetSpec) : List QueryEvent :=
  QueryEvent.queryStart :: QueryEvent.batchStart txt ::
    ((rss.map resultSetEvents).flatten ++
      [QueryEvent.batchComplete, QueryEvent.queryComplete])

/-- The distinct Batch one result set is expected to surface as. -/
def resultSetBatch (txt : Str) (rs : ResultSetSpec) : Batch :=
  ⟨rs.columns, rs.rowChunks.flatten, [], txt, false⟩

lemma runEvents_resultSets (txt : Str) (rss : List ResultSetSpec) :
    ∀ (c : List Column) (r : List Row) (out : List Batch) (fl : Bool),
      runEvents ⟨some ⟨some c, r, [], txt, false⟩, out, fl⟩
          ((rss.map resultSetEvents).flatten ++ [QueryEvent.batchComplete])
        = ⟨none,
            out ++ (⟨c, r, [], txt, false⟩ : Batch) ::
              rss.map (resultSetBatch txt), fl⟩ := by
  induction rss with
  | nil =>
      intro c r out fl
      simp [runEvents, stepEvent, freeze]
  | cons rs rest ih =>
      intro c r out fl
      have hsplit :
          ((rs :: rest).map resultSetEvents).flatten ++ [QueryEvent.batchComplete]
            = QueryEvent.resultSetAvailable rs.columns ::
                (rs.rowChunks.map QueryEvent.rowData ++
                  ((rest.map resultSetEvents).flatten ++
                    [QueryEvent.batchComplete])) := by
        simp [resultSetEvents, List.append_assoc]
      rw [hsplit]
      show runEvents
          ⟨some ⟨some rs.columns, [], [], txt, false⟩,
            out ++ [(⟨c, r, [], txt, false⟩ : Batch)], fl⟩
          (rs.rowChunks.map QueryEvent.rowData ++
            ((rest.map resultSetEvents).flatten ++ [QueryEvent.batchComplete]))
          = _
      rw [runEvents_append, runEvents_rowChunks]
      show runEvents
          ⟨some ⟨some rs.columns, [] ++ rs.rowChunks.flatten, [], txt, false⟩,
            out ++ [(⟨c, r, [], txt, false⟩ : Batch)], fl⟩
          ((rest.map resultSetEvents).flatten ++ [QueryEvent.batchComplete]) = _
      rw [List.nil_append, ih]
      simp [resultSetBatch]

/-- Claim C5: a statement that yields several result sets inside one
backend batch surfaces as that many distinct Batches, each with its own
rows (hence its own row count), in the order the backend produced them. -/
theorem multiple_result_sets_distinct_batches (queryText txt : Str)
    (rss : List ResultSetSpec) (hne : rss ≠ []) :
    execute_query queryText (procEvents txt rss)
      = rss.map (resultSetBatch txt) := by
  cases rss with
  | nil => exact absurd rfl hne
  | cons rs rest =>
      unfold execute_query
      have hsplit : procEvents txt (rs :: rest)
          = QueryEvent.queryStart :: QueryEvent.batchStart txt ::
              QueryEvent.resultSetAvailable rs.columns ::
                (rs.rowChunks.map QueryEvent.rowData ++
                  (((rest.map resultSetEvents).flatten ++
                      [QueryEvent.batchComplete]) ++
                    [QueryEvent.queryComplete])) := by
        simp [procEvents, resultSetEvents, List.append_assoc]
      rw [hsplit]
      show (runEvents ⟨some ⟨some rs.columns, [], [], txt, false⟩, [], false⟩
          (rs.rowChunks.map QueryEvent.rowData ++
            (((rest.map resultSetEvents).flatten ++ [QueryEvent.batchComplete]) ++
              [QueryEvent.queryComplete]))).output = _
      rw [runEvents_append, runEvents_rowChunks]
      show (runEvents
          ⟨some ⟨some rs.columns, [] ++ rs.rowChunks.flatten, [], txt, false⟩,
            [], false⟩
          (((rest.map resultSetEvents).flatten ++ [QueryEvent.batchComplete]) ++
            [QueryEvent.queryComplete])).output = _
      rw [runEvents_append, List.nil_append, runEvents_resultSets]
      simp [runEvents, stepEvent, resultSetBatch]

/-- Claim C5 witness: a stored procedure reporting two result sets in one
batch surfaces as two distinct Batches in order, the first with one row,
the second with none. -/
theorem multiple_result_sets_distinct_batches_witness :
    ([(⟨[(['a'], ['i'])], [[[JsonValue.num 1]]]⟩ : ResultSetSpec),
        ⟨[], []⟩] ≠ []) ∧
    execute_query [] (procEvents ['s']
        [(⟨[(['a'], ['i'])], [[[JsonValue.num 1]]]⟩ : ResultSetSpec),
          ⟨[], []⟩])
      = [(⟨[(['a'], ['i'])], [[[JsonValue.num 1]]]⟩ : ResultSetSpec),
          ⟨[], []⟩].map (resultSetBatch ['s']) :=
  ⟨List.cons_ne_nil _ _,
    multiple_result_sets_distinct_batches [] ['s']
      [(⟨[(['a'], ['i'])], [[[JsonValue.num 1]]]⟩ : ResultSetSpec), ⟨[], []⟩]
      (List.cons_ne_nil _ _)⟩

end OsqlCli
